import Mathlib

/-!
Verification development for the ConfessServer repository.

The repository contains two near-identical server variants:
* `src/server.js` — Express server backed by a Postgres table
  (schema in `src/unnamed/part_000`): rows `(id, message, time, photo, likes)`,
  `GET /confessions` runs `SELECT * FROM confessions ORDER BY id DESC`,
  `POST /confess/:id/like` runs a single atomic
  `UPDATE confessions SET likes = likes + 1 WHERE id = $1 RETURNING likes`.
* `src/unnamed/part_001` — Express server backed by an in-memory array
  persisted to a JSON file: `confessions.unshift(confession)` on post,
  `confessions.find(c => c.id === id)` then `confession.likes += 1` on like.

Both variants assign `id: Date.now()`, trim and sanitize the message with
`sanitizeHtml(raw.trim(), allowedTags: [], allowedAttributes: empty)`,
filter uploads by declared MIME type with a 2 MiB size limit, and mount a
shared `express-rate-limit` instance (10 s window, max 2) on the `/confess`
path prefix and on `POST /verify-turnstile`.

Text is modelled as `List Char`; the millisecond clock `Date.now()` is an
explicit `Nat` input of every operation.
-/

namespace Confess

/-- JavaScript whitespace characters stripped by `String.prototype.trim`
(space, tab, line feed, carriage return, vertical tab, form feed). -/
def isJsSpace (c : Char) : Bool :=
  c = ' ' || c = '\t' || c = '\n' || c = '\r' || c = Char.ofNat 11 || c = Char.ofNat 12

/-- `raw.trim()` from the source: drop whitespace from both ends. -/
def trimChars (s : List Char) : List Char :=
  ((s.dropWhile isJsSpace).reverse.dropWhile isJsSpace).reverse

/-- Modelled from the spec: the external `sanitize-html` library (a dependency,
not part of `src/`) called with `allowedTags: []` and no allowed attributes
"strips all markup tags and attributes, returning plain text only (no tags, no
attributes permitted through)" and lets no tag delimiter survive.  The state
machine drops every tag span from `<` to the matching `>` (an unterminated tag
is dropped to the end of input) and entity-escapes a stray `>` in text. -/
def sanitizeAux : Bool → List Char → List Char
  | _, [] => []
  | true, c :: rest =>
    if c = '>' then sanitizeAux false rest else sanitizeAux true rest
  | false, c :: rest =>
    if c = '<' then sanitizeAux true rest
    else if c = '>' then '&' :: 'g' :: 't' :: ';' :: sanitizeAux false rest
    else c :: sanitizeAux false rest

/-- `sanitizeHtml(text, allowedTags: [], allowedAttributes: empty)`. -/
def sanitizeHtml (s : List Char) : List Char := sanitizeAux false s

/-- One stored confession.  `time` (`new Date()` at acceptance) is modelled by
the same millisecond clock value that provides the id. -/
structure Confession where
  id : Nat
  message : List Char
  time : Nat
  photo : Option (List Char)
  likes : Nat
deriving DecidableEq, Repr

/-- An uploaded file as multer sees it: declared MIME type, size in bytes,
original client-supplied name. -/
structure FileInfo where
  mimetype : List Char
  size : Nat
  originalname : List Char
deriving DecidableEq, Repr

/-- `const allowed = ['image/jpeg', 'image/png', 'image/gif', 'image/webp']`. -/
def allowedMimes : List (List Char) :=
  ["image/jpeg".data, "image/png".data, "image/gif".data, "image/webp".data]

/-- `limits: fileSize: 2 * 1024 * 1024`. -/
def fileSizeLimit : Nat := 2 * 1024 * 1024

/-- Errors the multer upload middleware can raise before the route handler
runs.  Neither variant installs an error-handling middleware, so these fall
through to the Express default handler (HTTP 500). -/
inductive MulterErr where
  | unsupportedType
  | fileTooLarge
deriving DecidableEq, Repr

/-- Upload pipeline of `src/server.js`: `fileFilter` calls
`cb(null, allowed.includes(file.mimetype))`, so a disallowed file is silently
SKIPPED (the request proceeds with no file); an accepted file is then subject
to the 2 MiB streaming size limit. -/
def multerFilterSkip : Option FileInfo → Except MulterErr (Option FileInfo)
  | none => .ok none
  | some f =>
    if f.mimetype ∈ allowedMimes then
      if f.size ≤ fileSizeLimit then .ok (some f) else .error .fileTooLarge
    else .ok none

/-- Upload pipeline of `src/unnamed/part_001`: `fileFilter` calls
`cb(new Error('Only image files are allowed.'))` for a disallowed file, so the
whole request fails with a multer error; an accepted file is then subject to
the 2 MiB size limit. -/
def multerFilterErr : Option FileInfo → Except MulterErr (Option FileInfo)
  | none => .ok none
  | some f =>
    if f.mimetype ∈ allowedMimes then
      if f.size ≤ fileSizeLimit then .ok (some f) else .error .fileTooLarge
    else .error .unsupportedType

/-- `path.extname(file.originalname)`: the suffix from the last dot of the
name, empty when there is no dot. -/
def extname (name : List Char) : List Char :=
  match (name.reverse.takeWhile (fun c => c ≠ '.')) with
  | tail =>
    if tail.length = name.length then [] else '.' :: tail.reverse

/-- Multer storage filename from the source:
`img_` then `Date.now()` then the original extension (lower-cased in
`src/server.js`). -/
def safeName (now : Nat) (orig : List Char) : List Char :=
  "img_".data ++ (Nat.repr now).data ++ (extname orig).map Char.toLower

/-- Photo URL built by `src/unnamed/part_001`:
`http://localhost:3000/uploads/` plus the stored filename. -/
def jsPhotoUrl (now : Nat) (f : FileInfo) : List Char :=
  "http://localhost:3000/uploads/".data ++ safeName now f.originalname

/-- Photo URL built by `src/server.js`:
`protocol://host/uploads/` plus the stored filename; the request's
protocol-and-host part is the `base` parameter. -/
def sqlPhotoUrl (base : List Char) (now : Nat) (f : FileInfo) : List Char :=
  base ++ "/uploads/".data ++ safeName now f.originalname

/-- Outcome of `POST /confess`.  HTTP codes: `created` 201, `emptyContent`
400, `dbError` 500, `uploadError` 500 (Express default error handler). -/
inductive PostOutcome where
  | created (c : Confession)
  | emptyContent
  | dbError
  | uploadError (e : MulterErr)
deriving DecidableEq, Repr

/-- HTTP status code emitted for each post outcome. -/
def postStatus : PostOutcome → Nat
  | .created _ => 201
  | .emptyContent => 400
  | .dbError => 500
  | .uploadError _ => 500

/-- `POST /confess` of `src/unnamed/part_001`: multer runs first; then the
handler rejects an absent or blank message, sanitizes the trimmed message,
builds the confession with `id: Date.now()` and `likes: 0`, and
`confessions.unshift(confession)` prepends it to the in-memory array. -/
def jsPostConfess (now : Nat) (msg : Option (List Char)) (file : Option FileInfo)
    (store : List Confession) : PostOutcome × List Confession :=
  match multerFilterErr file with
  | .error e => (.uploadError e, store)
  | .ok f =>
    match msg with
    | none => (.emptyContent, store)
    | some raw =>
      if trimChars raw = [] then (.emptyContent, store)
      else
        let c : Confession :=
          { id := now
            message := sanitizeHtml (trimChars raw)
            time := now
            photo := f.map (jsPhotoUrl now)
            likes := 0 }
        (.created c, c :: store)

/-- `POST /confess` of `src/server.js`: multer (skip-style filter) runs first;
then the handler rejects an absent or blank message, sanitizes, and runs
`INSERT INTO confessions (id, message, time, photo, likes) VALUES ...`.
The table's `id BIGINT PRIMARY KEY` makes a duplicate-id insert fail, which
the handler surfaces as a 500 `dbError` with the table unchanged. -/
def sqlPostConfess (base : List Char) (now : Nat) (msg : Option (List Char))
    (file : Option FileInfo) (table : List Confession) :
    PostOutcome × List Confession :=
  match multerFilterSkip file with
  | .error e => (.uploadError e, table)
  | .ok f =>
    match msg with
    | none => (.emptyContent, table)
    | some raw =>
      if trimChars raw = [] then (.emptyContent, table)
      else
        let c : Confession :=
          { id := now
            message := sanitizeHtml (trimChars raw)
            time := now
            photo := f.map (sqlPhotoUrl base now)
            likes := 0 }
        if table.any (fun r => r.id = now) then (.dbError, table)
        else (.created c, table ++ [c])

/-- `GET /confessions` of `src/unnamed/part_001`: `res.json(confessions)`
returns the in-memory array as is. -/
def jsListConfessions (store : List Confession) : List Confession := store

/-- Descending-id comparison used to model `ORDER BY id DESC`. -/
def idGe (a b : Confession) : Prop := b.id ≤ a.id

instance : DecidableRel idGe := fun a b => Nat.decLe b.id a.id

/-- `GET /confessions` of `src/server.js`:
`SELECT * FROM confessions ORDER BY id DESC`. -/
def sqlListConfessions (table : List Confession) : List Confession :=
  List.insertionSort idGe table

/-- Outcome of `POST /confess/:id/like`.  HTTP codes: `ok` 200, `notFound`
404, `invalidId` 400. -/
inductive LikeOutcome where
  | ok (likes : Nat)
  | notFound
  | invalidId
deriving DecidableEq, Repr

/-- HTTP status code emitted for each like outcome. -/
def likeStatus : LikeOutcome → Nat
  | .ok _ => 200
  | .notFound => 404
  | .invalidId => 400

/-- `confessions.find(c => c.id === id)` followed by
`confession.likes = (confession.likes || 0) + 1`: locate the first entry with
the requested id, increment its like counter in place, and report the new
count.  `none` when no entry matches. -/
def jsLikeFind (i : Nat) : List Confession → Option (Nat × List Confession)
  | [] => none
  | c :: rest =>
    if c.id = i then some (c.likes + 1, { c with likes := c.likes + 1 } :: rest)
    else
      match jsLikeFind i rest with
      | none => none
      | some (n, rest') => some (n, c :: rest')

/-- `POST /confess/:id/like` of `src/unnamed/part_001`. -/
def jsLikeHandler (i : Nat) (store : List Confession) :
    LikeOutcome × List Confession :=
  match jsLikeFind i store with
  | none => (.notFound, store)
  | some (n, store') => (.ok n, store')

/-- `POST /confess/:id/like` of `src/server.js`: the handler first rejects a
falsy parsed id (`if (!id || isNaN(id))` — id 0 is falsy in JavaScript), then
runs the single atomic statement
`UPDATE confessions SET likes = likes + 1 WHERE id = $1 RETURNING likes`;
`rowCount === 0` yields 404, otherwise the first returned row's new count. -/
def sqlLikeHandler (i : Nat) (table : List Confession) :
    LikeOutcome × List Confession :=
  if i = 0 then (.invalidId, table)
  else
    match table.filter (fun c => c.id = i) with
    | [] => (.notFound, table)
    | c :: _ =>
      (.ok (c.likes + 1),
        table.map (fun c => if c.id = i then { c with likes := c.likes + 1 } else c))

/-- Rate-limiter window length: `windowMs: 10 * 1000`. -/
def windowMs : Nat := 10 * 1000

/-- Rate-limiter per-window ceiling: `max: 2` (both variants). -/
def rateMax : Nat := 2

/-- Audit record appended to `ddos-blocked.log` by the limiter's blocked
handler: timestamp, client address, country header hint, user-agent. -/
structure AuditRecord where
  time : Nat
  ip : Nat
  country : List Char
  ua : List Char
deriving DecidableEq, Repr

/-- Shared limiter state: per-client fixed-window hit counters
(client key, window start, hit count) plus the append-only audit log. -/
structure LimiterState where
  hits : List (Nat × Nat × Nat)
  log : List AuditRecord
deriving DecidableEq, Repr

/-- The limiter state before any request. -/
def LimiterState.empty : LimiterState := { hits := [], log := [] }

/-- Modelled from the spec: the `express-rate-limit` dependency's in-memory
store (not part of `src/`) keeps a fixed-window counter per client key —
"fixed window (reset count to zero at window boundary) is what the reference
behavior implements".  A hit at time `now` starts a fresh window with count 1
when the key is unseen or its window has elapsed, and otherwise increments the
key's count; the new count is returned. -/
def bumpHits (now key : Nat) : List (Nat × Nat × Nat) → Nat × List (Nat × Nat × Nat)
  | [] => (1, [(key, now, 1)])
  | e :: rest =>
    if e.1 = key then
      if now < e.2.1 + windowMs then
        (e.2.2 + 1, (key, e.2.1, e.2.2 + 1) :: rest)
      else
        (1, (key, now, 1) :: rest)
    else
      match bumpHits now key rest with
      | (n, rest') => (n, e :: rest')

/-- Admission decision of the limiter.  `blocked` is HTTP 429. -/
inductive Decision where
  | admitted
  | blocked
deriving DecidableEq, Repr

/-- The `ddosLimiter` middleware: count the hit; past `rateMax` hits in the
window, run the blocked handler, which appends an audit record (timestamp,
ip, country header, user-agent) to `ddos-blocked.log` and responds 429. -/
def ddosLimiter (now key : Nat) (country ua : List Char) (st : LimiterState) :
    Decision × LimiterState :=
  match bumpHits now key st.hits with
  | (n, hits') =>
    if n ≤ rateMax then (.admitted, { st with hits := hits' })
    else
      (.blocked,
        { hits := hits'
          log := st.log ++ [{ time := now, ip := key, country := country, ua := ua }] })

/-- Run the limiter over a sequence of hit times from one client,
collecting the decisions. -/
def runLimiter (key : Nat) (country ua : List Char) :
    List Nat → LimiterState → List Decision × LimiterState
  | [], st => ([], st)
  | t :: ts, st =>
    match ddosLimiter t key country ua st with
    | (d, st') =>
      match runLimiter key country ua ts st' with
      | (ds, st'') => (d :: ds, st'')

/-- HTTP method (the server only distinguishes GET and POST). -/
inductive Method where
  | get
  | post
deriving DecidableEq, Repr

/-- Express mount matching for `app.use('/confess', ddosLimiter)`: the mount
path matches the request path exactly or as a prefix ending at a path-segment
boundary, so `/confess` and `/confess/123/like` match but `/confessions` does
not. -/
def confessMount (p : List Char) : Bool :=
  p = "/confess".data || List.isPrefixOf "/confess/".data p

/-- Whether a request passes through the single shared `ddosLimiter`
instance: every method under the `/confess` mount, plus the
`POST /verify-turnstile` route which names the same instance. -/
def limiterApplies (m : Method) (p : List Char) : Bool :=
  confessMount p || (decide (m = Method.post) && decide (p = "/verify-turnstile".data))

/-- Route a request through the limiter layer: rate-limited paths consult the
one shared limiter state, every other path is admitted untouched. -/
def handleReq (m : Method) (p : List Char) (now key : Nat) (country ua : List Char)
    (st : LimiterState) : Decision × LimiterState :=
  if limiterApplies m p then ddosLimiter now key country ua st
  else (.admitted, st)

/-- Run a sequence of requests (method, path, time) from one client through
the limiter layer, collecting the decisions. -/
def runReqs (key : Nat) (country ua : List Char) :
    List (Method × List Char × Nat) → LimiterState → List Decision × LimiterState
  | [], st => ([], st)
  | (m, p, t) :: rs, st =>
    match handleReq m p t key country ua st with
    | (d, st') =>
      match runReqs key country ua rs st' with
      | (ds, st'') => (d :: ds, st'')

/-- One `POST /confess` request: clock value, optional message field,
optional uploaded file. -/
structure PostReq where
  now : Nat
  message : Option (List Char)
  file : Option FileInfo
deriving DecidableEq, Repr

/-- The file surviving the skip-style filter of `src/server.js`
(disallowed files are silently dropped). -/
def sqlOkFile (file : Option FileInfo) : Option FileInfo :=
  match multerFilterSkip file with
  | .ok f => f
  | .error _ => none

/-- The file surviving the erroring filter of `src/unnamed/part_001`. -/
def jsOkFile (file : Option FileInfo) : Option FileInfo :=
  match multerFilterErr file with
  | .ok f => f
  | .error _ => none

/-- The confession row built by `src/unnamed/part_001` for a request. -/
def jsRow (r : PostReq) : Confession :=
  { id := r.now
    message := sanitizeHtml (trimChars (r.message.getD []))
    time := r.now
    photo := (jsOkFile r.file).map (jsPhotoUrl r.now)
    likes := 0 }

/-- The confession row built by `src/server.js` for a request. -/
def sqlRow (base : List Char) (r : PostReq) : Confession :=
  { id := r.now
    message := sanitizeHtml (trimChars (r.message.getD []))
    time := r.now
    photo := (sqlOkFile r.file).map (sqlPhotoUrl base r.now)
    likes := 0 }

/-- A request that the `part_001` variant accepts regardless of store state:
message present and non-blank, upload (if any) passing the erroring filter. -/
def reqOkJs (r : PostReq) : Bool :=
  (match r.message with
   | none => false
   | some raw => !(trimChars raw).isEmpty) &&
  (match multerFilterErr r.file with
   | .ok _ => true
   | .error _ => false)

/-- A request whose message and upload pass the `server.js` checks
(acceptance additionally needs a fresh id for the primary key). -/
def reqOkSql (r : PostReq) : Bool :=
  (match r.message with
   | none => false
   | some raw => !(trimChars raw).isEmpty) &&
  (match multerFilterSkip r.file with
   | .ok _ => true
   | .error _ => false)

/-- Process a sequence of `POST /confess` requests in the `part_001`
variant, starting from the given store. -/
def runJsPosts : List PostReq → List Confession → List Confession
  | [], store => store
  | r :: rs, store => runJsPosts rs (jsPostConfess r.now r.message r.file store).2

/-- Process a sequence of `POST /confess` requests in the `server.js`
variant, starting from the given table. -/
def runSqlPosts (base : List Char) : List PostReq → List Confession → List Confession
  | [], table => table
  | r :: rs, table => runSqlPosts base rs (sqlPostConfess base r.now r.message r.file table).2

/-- Iterate the `part_001` like operation `n` times on one id. -/
def jsLikeIter (i : Nat) : Nat → List Confession → List Confession
  | 0, store => store
  | n + 1, store => jsLikeIter i n (jsLikeHandler i store).2

/-- Iterate the `server.js` like operation `n` times on one id. -/
def sqlLikeIter (i : Nat) : Nat → List Confession → List Confession
  | 0, table => table
  | n + 1, table => sqlLikeIter i n (sqlLikeHandler i table).2

instance : IsTotal Confession idGe := ⟨fun a b => Nat.le_total b.id a.id⟩

instance : IsTrans Confession idGe :=
  ⟨fun _ _ _ hab hbc => Nat.le_trans hbc hab⟩

/-- Strict descending-id comparison, used to pin down the `ORDER BY id DESC`
result uniquely when the ids are distinct. -/
def idGt (a b : Confession) : Prop := b.id < a.id

instance : IsAntisymm Confession idGt :=
  ⟨fun _ _ hab hba => absurd (Nat.lt_trans hab hba) (Nat.lt_irrefl _)⟩

/-- Decisions produced for a run of in-window hits when the client's current
window count is `c`: each hit is admitted while the incremented count stays
within `rateMax` and blocked afterwards. -/
def windowDecisions (c : Nat) : Nat → List Decision
  | 0 => []
  | n + 1 =>
    (if c + 1 ≤ rateMax then Decision.admitted else Decision.blocked) ::
      windowDecisions (c + 1) n

/-- Audit records produced for a run of in-window hits when the client's
current window count is `c`: one record per blocked hit. -/
def windowLog (key : Nat) (country ua : List Char) (c : Nat) :
    List Nat → List AuditRecord
  | [] => []
  | t :: ts =>
    (if c + 1 ≤ rateMax then ([] : List AuditRecord)
     else [{ time := t, ip := key, country := country, ua := ua }]) ++
      windowLog key country ua (c + 1) ts

/-- Concrete inputs used by several witnesses: two valid text-only posts with
strictly increasing clock values. -/
def wReqs : List PostReq :=
  [{ now := 1, message := some "a".data, file := none },
   { now := 2, message := some "b".data, file := none }]

/-- Concrete base URL used by witnesses for the `server.js` variant. -/
def wBase : List Char := "http://h".data

/-- Concrete PNG upload used by counterexamples and witnesses. -/
def pngFile : FileInfo :=
  { mimetype := "image/png".data, size := 100, originalname := "a.png".data }

/-- Concrete PDF upload used by counterexamples and witnesses. -/
def pdfFile : FileInfo :=
  { mimetype := "application/pdf".data, size := 100, originalname := "a.pdf".data }

/-! ### Helper lemmas -/

theorem not_mem_sanitizeAux (s : List Char) :
    ∀ (b : Bool), ∀ x ∈ sanitizeAux b s, x ≠ '<' ∧ x ≠ '>' := by
  induction s with
  | nil => intro b x hx; simp [sanitizeAux] at hx
  | cons c rest ih =>
    intro b x hx
    cases b with
    | true =>
      by_cases h : c = '>'
      · rw [sanitizeAux, if_pos h] at hx
        exact ih false x hx
      · rw [sanitizeAux, if_neg h] at hx
        exact ih true x hx
    | false =>
      by_cases h1 : c = '<'
      · rw [sanitizeAux, if_pos h1] at hx
        exact ih true x hx
      · by_cases h2 : c = '>'
        · rw [sanitizeAux, if_neg h1, if_pos h2] at hx
          simp only [List.mem_cons] at hx
          rcases hx with h | h | h | h | h
          · subst h; exact ⟨by decide, by decide⟩
          · subst h; exact ⟨by decide, by decide⟩
          · subst h; exact ⟨by decide, by decide⟩
          · subst h; exact ⟨by decide, by decide⟩
          · exact ih false x h
        · rw [sanitizeAux, if_neg h1, if_neg h2] at hx
          simp only [List.mem_cons] at hx
          rcases hx with h | h
          · subst h; exact ⟨h1, h2⟩
          · exact ih false x h

theorem not_mem_sanitizeHtml (s : List Char) :
    ∀ x ∈ sanitizeHtml s, x ≠ '<' ∧ x ≠ '>' :=
  not_mem_sanitizeAux s false

theorem jsPost_accepts (r : PostReq) (store : List Confession)
    (h : reqOkJs r = true) :
    jsPostConfess r.now r.message r.file store = (.created (jsRow r), jsRow r :: store) := by
  obtain ⟨now, msg, file⟩ := r
  rcases msg with _ | raw
  · simp [reqOkJs] at h
  · rcases hf : multerFilterErr file with e | f
    · simp [reqOkJs, hf] at h
    · simp only [reqOkJs, hf, Bool.and_true, Bool.and_eq_true, and_true] at h
      have ht : trimChars raw ≠ [] := by
        intro hh
        rw [hh] at h
        simp [List.isEmpty] at h
      simp only [jsPostConfess, hf, if_neg ht, jsRow, jsOkFile, Option.getD_some]

theorem sqlPost_accepts (base : List Char) (r : PostReq) (table : List Confession)
    (h : reqOkSql r = true) (hid : ∀ c ∈ table, c.id ≠ r.now) :
    sqlPostConfess base r.now r.message r.file table =
      (.created (sqlRow base r), table ++ [sqlRow base r]) := by
  obtain ⟨now, msg, file⟩ := r
  rcases msg with _ | raw
  · simp [reqOkSql] at h
  · rcases hf : multerFilterSkip file with e | f
    · simp [reqOkSql, hf] at h
    · simp only [reqOkSql, hf, Bool.and_true, Bool.and_eq_true, and_true] at h
      have ht : trimChars raw ≠ [] := by
        intro hh
        rw [hh] at h
        simp [List.isEmpty] at h
      have hany : table.any (fun c => c.id = now) = false := by
        rw [List.any_eq_false]
        intro c hc
        simpa using hid c hc
      simp only [sqlPostConfess, hf, if_neg ht, hany, sqlRow, sqlOkFile, Option.getD_some,
        Bool.false_eq_true, if_false]

theorem runJsPosts_eq (reqs : List PostReq) :
    ∀ store : List Confession, (∀ r ∈ reqs, reqOkJs r = true) →
      runJsPosts reqs store = (reqs.map jsRow).reverse ++ store := by
  induction reqs with
  | nil => intro store _; simp [runJsPosts]
  | cons r rs ih =>
    intro store h
    have hr : reqOkJs r = true := h r (List.mem_cons_self r rs)
    have hstep := jsPost_accepts r store hr
    unfold runJsPosts
    rw [hstep]
    rw [ih (jsRow r :: store) (fun x hx => h x (List.mem_cons_of_mem r hx))]
    simp

theorem runSqlPosts_eq (base : List Char) (reqs : List PostReq) :
    ∀ table : List Confession, (∀ r ∈ reqs, reqOkSql r = true) →
      List.Pairwise (· < ·) (reqs.map (·.now)) →
      (∀ c ∈ table, ∀ r ∈ reqs, c.id < r.now) →
      runSqlPosts base reqs table = table ++ reqs.map (sqlRow base) := by
  induction reqs with
  | nil => intro table _ _ _; simp [runSqlPosts]
  | cons r rs ih =>
    intro table hok hmono hlt
    have hr : reqOkSql r = true := hok r (List.mem_cons_self r rs)
    have hid : ∀ c ∈ table, c.id ≠ r.now := by
      intro c hc
      exact Nat.ne_of_lt (hlt c hc r (List.mem_cons_self r rs))
    have hstep := sqlPost_accepts base r table hr hid
    unfold runSqlPosts
    rw [hstep]
    simp only [List.map_cons, List.pairwise_cons] at hmono
    have hlt' : ∀ c ∈ table ++ [sqlRow base r], ∀ r' ∈ rs, c.id < r'.now := by
      intro c hc r' hr'
      rcases List.mem_append.1 hc with hc | hc
      · exact hlt c hc r' (List.mem_cons_of_mem r hr')
      · simp only [List.mem_singleton] at hc
        subst hc
        exact hmono.1 r'.now (List.mem_map_of_mem (·.now) hr')
    rw [ih (table ++ [sqlRow base r]) (fun x hx => hok x (List.mem_cons_of_mem r hx))
      hmono.2 hlt']
    simp

theorem sqlListConfessions_of_ascending (t : List Confession)
    (h : List.Pairwise (fun a b => a.id < b.id) t) :
    sqlListConfessions t = t.reverse := by
  have hperm : List.Perm (List.insertionSort idGe t) t := List.perm_insertionSort idGe t
  have hsorted : List.Sorted idGe (List.insertionSort idGe t) :=
    List.sorted_insertionSort idGe t
  have hne : List.Pairwise (fun a b : Confession => a.id ≠ b.id) t :=
    h.imp (fun hlt => Nat.ne_of_lt hlt)
  have hsymm : ∀ {x y : Confession}, x.id ≠ y.id → y.id ≠ x.id :=
    fun hxy => fun hh => hxy hh.symm
  have hne' : List.Pairwise (fun a b : Confession => a.id ≠ b.id)
      (List.insertionSort idGe t) :=
    (hperm.pairwise_iff hsymm).2 hne
  have hstrict : List.Sorted idGt (List.insertionSort idGe t) := by
    have := hsorted.and hne'
    exact this.imp (fun hp => Nat.lt_of_le_of_ne hp.1 (fun hh => hp.2 hh.symm))
  have hrev : List.Sorted idGt t.reverse := by
    rw [List.Sorted, List.pairwise_reverse]
    exact h
  have hperm' : List.Perm (List.insertionSort idGe t) t.reverse :=
    hperm.trans (List.reverse_perm t).symm
  exact List.eq_of_perm_of_sorted hperm' hstrict hrev

theorem exists_first_match (i : Nat) (store : List Confession)
    (h : i ∈ store.map (·.id)) :
    ∃ l1 c l2, store = l1 ++ c :: l2 ∧ c.id = i ∧ ∀ x ∈ l1, x.id ≠ i := by
  induction store with
  | nil => simp at h
  | cons a rest ih =>
    by_cases ha : a.id = i
    · exact ⟨[], a, rest, rfl, ha, by simp⟩
    · have h' : i ∈ rest.map (·.id) := by
        simp only [List.map_cons, List.mem_cons] at h
        rcases h with h | h
        · exact absurd h.symm ha
        · exact h
      obtain ⟨l1, c, l2, he, hc, hl⟩ := ih h'
      refine ⟨a :: l1, c, l2, by rw [he, List.cons_append], hc, ?_⟩
      intro x hx
      rcases List.mem_cons.1 hx with hx | hx
      · subst hx; exact ha
      · exact hl x hx

theorem jsLikeFind_found (i : Nat) (l1 : List Confession) (c : Confession)
    (l2 : List Confession) (hl : ∀ x ∈ l1, x.id ≠ i) (hc : c.id = i) :
    jsLikeFind i (l1 ++ c :: l2) =
      some (c.likes + 1, l1 ++ { c with likes := c.likes + 1 } :: l2) := by
  induction l1 with
  | nil => simp [jsLikeFind, hc]
  | cons a rest ih =>
    have ha : a.id ≠ i := hl a (List.mem_cons_self a rest)
    rw [List.cons_append, jsLikeFind, if_neg ha,
      ih (fun x hx => hl x (List.mem_cons_of_mem a hx))]
    rfl

theorem jsLikeFind_none (i : Nat) (store : List Confession)
    (h : ∀ x ∈ store, x.id ≠ i) : jsLikeFind i store = none := by
  induction store with
  | nil => rfl
  | cons a rest ih =>
    have ha : a.id ≠ i := h a (List.mem_cons_self a rest)
    rw [jsLikeFind, if_neg ha, ih (fun x hx => h x (List.mem_cons_of_mem a hx))]

theorem jsLike_found (i : Nat) (l1 : List Confession) (c : Confession)
    (l2 : List Confession) (hl : ∀ x ∈ l1, x.id ≠ i) (hc : c.id = i) :
    jsLikeHandler i (l1 ++ c :: l2) =
      (.ok (c.likes + 1), l1 ++ { c with likes := c.likes + 1 } :: l2) := by
  rw [jsLikeHandler, jsLikeFind_found i l1 c l2 hl hc]

theorem likesBump_noMatch (i : Nat) (l : List Confession)
    (h : ∀ x ∈ l, x.id ≠ i) :
    l.map (fun c => if c.id = i then { c with likes := c.likes + 1 } else c) = l := by
  induction l with
  | nil => rfl
  | cons a rest ih =>
    have ha : a.id ≠ i := h a (List.mem_cons_self a rest)
    rw [List.map_cons, if_neg ha, ih (fun x hx => h x (List.mem_cons_of_mem a hx))]

theorem likesFilter_noMatch (i : Nat) (l : List Confession)
    (h : ∀ x ∈ l, x.id ≠ i) :
    l.filter (fun c => c.id = i) = [] := by
  rw [List.filter_eq_nil_iff]
  intro x hx
  simpa using h x hx

theorem sqlLike_found (i : Nat) (l1 : List Confession) (c : Confession)
    (l2 : List Confession) (hi : i ≠ 0) (hl1 : ∀ x ∈ l1, x.id ≠ i)
    (hc : c.id = i) (hl2 : ∀ x ∈ l2, x.id ≠ i) :
    sqlLikeHandler i (l1 ++ c :: l2) =
      (.ok (c.likes + 1), l1 ++ { c with likes := c.likes + 1 } :: l2) := by
  rw [sqlLikeHandler, if_neg hi]
  rw [List.filter_append, likesFilter_noMatch i l1 hl1, List.nil_append,
    List.filter_cons, if_pos (by simpa using hc)]
  rw [List.map_append, likesBump_noMatch i l1 hl1, List.map_cons, if_pos hc,
    likesBump_noMatch i l2 hl2]

theorem sqlLike_notFound (i : Nat) (table : List Confession) (hi : i ≠ 0)
    (h : ∀ x ∈ table, x.id ≠ i) :
    sqlLikeHandler i table = (.notFound, table) := by
  rw [sqlLikeHandler, if_neg hi, likesFilter_noMatch i table h]

theorem jsLike_notFound (i : Nat) (store : List Confession)
    (h : ∀ x ∈ store, x.id ≠ i) :
    jsLikeHandler i store = (.notFound, store) := by
  rw [jsLikeHandler, jsLikeFind_none i store h]

theorem likes_update_collapse (c : Confession) (a b : Nat) :
    ({ { c with likes := a } with likes := b } : Confession) = { c with likes := b } :=
  rfl

theorem jsLikeIter_eq (i : Nat) (n : Nat) :
    ∀ (l1 : List Confession) (c : Confession) (l2 : List Confession),
      (∀ x ∈ l1, x.id ≠ i) → c.id = i →
      jsLikeIter i n (l1 ++ c :: l2) = l1 ++ { c with likes := c.likes + n } :: l2 := by
  induction n with
  | zero => intro l1 c l2 _ _; simp [jsLikeIter]
  | succ n ih =>
    intro l1 c l2 hl hc
    rw [jsLikeIter, jsLike_found i l1 c l2 hl hc]
    rw [ih l1 { c with likes := c.likes + 1 } l2 hl hc]
    rw [likes_update_collapse]
    rw [show c.likes + 1 + n = c.likes + (n + 1) from by omega]

theorem sqlLikeIter_eq (i : Nat) (n : Nat) :
    ∀ (l1 : List Confession) (c : Confession) (l2 : List Confession),
      i ≠ 0 → (∀ x ∈ l1, x.id ≠ i) → c.id = i → (∀ x ∈ l2, x.id ≠ i) →
      sqlLikeIter i n (l1 ++ c :: l2) = l1 ++ { c with likes := c.likes + n } :: l2 := by
  induction n with
  | zero => intro l1 c l2 _ _ _ _; simp [sqlLikeIter]
  | succ n ih =>
    intro l1 c l2 hi hl1 hc hl2
    rw [sqlLikeIter, sqlLike_found i l1 c l2 hi hl1 hc hl2]
    rw [ih l1 { c with likes := c.likes + 1 } l2 hi hl1 hc hl2]
    rw [likes_update_collapse]
    rw [show c.likes + 1 + n = c.likes + (n + 1) from by omega]

theorem bumpHits_fresh (now key : Nat) (hits : List (Nat × Nat × Nat))
    (h : ∀ e ∈ hits, e.1 ≠ key) :
    bumpHits now key hits = (1, hits ++ [(key, now, 1)]) := by
  induction hits with
  | nil => rfl
  | cons e rest ih =>
    have he : e.1 ≠ key := h e (List.mem_cons_self e rest)
    rw [bumpHits, if_neg he, ih (fun x hx => h x (List.mem_cons_of_mem e hx))]
    rfl

theorem bumpHits_inWindow (now key t0 c : Nat) (H : List (Nat × Nat × Nat))
    (h : ∀ e ∈ H, e.1 ≠ key) (hw : now < t0 + windowMs) :
    bumpHits now key (H ++ [(key, t0, c)]) = (c + 1, H ++ [(key, t0, c + 1)]) := by
  induction H with
  | nil => simp [bumpHits, hw]
  | cons e rest ih =>
    have he : e.1 ≠ key := h e (List.mem_cons_self e rest)
    rw [List.cons_append, bumpHits, if_neg he,
      ih (fun x hx => h x (List.mem_cons_of_mem e hx))]
    rfl

theorem ddosLimiter_inWindow (now key t0 c : Nat) (country ua : List Char)
    (H : List (Nat × Nat × Nat)) (lg : List AuditRecord)
    (hH : ∀ e ∈ H, e.1 ≠ key) (hw : now < t0 + windowMs) :
    ddosLimiter now key country ua { hits := H ++ [(key, t0, c)], log := lg } =
      (if c + 1 ≤ rateMax then Decision.admitted else Decision.blocked,
        { hits := H ++ [(key, t0, c + 1)],
          log := lg ++
            if c + 1 ≤ rateMax then []
            else [{ time := now, ip := key, country := country, ua := ua }] }) := by
  rw [ddosLimiter]
  simp only [bumpHits_inWindow now key t0 c H hH hw]
  by_cases hcm : c + 1 ≤ rateMax
  · simp [hcm]
  · simp [hcm]

theorem runLimiter_window (key : Nat) (country ua : List Char) (ts : List Nat) :
    ∀ (H : List (Nat × Nat × Nat)) (lg : List AuditRecord) (t0 c : Nat),
      (∀ e ∈ H, e.1 ≠ key) → (∀ t ∈ ts, t < t0 + windowMs) →
      runLimiter key country ua ts { hits := H ++ [(key, t0, c)], log := lg } =
        (windowDecisions c ts.length,
          { hits := H ++ [(key, t0, c + ts.length)],
            log := lg ++ windowLog key country ua c ts }) := by
  induction ts with
  | nil => intro H lg t0 c _ _; simp [runLimiter, windowDecisions, windowLog]
  | cons t ts ih =>
    intro H lg t0 c hH hw
    have hwt : t < t0 + windowMs := hw t (List.mem_cons_self t ts)
    rw [runLimiter]
    simp only [ddosLimiter_inWindow t key t0 c country ua H lg hH hwt]
    by_cases hcm : c + 1 ≤ rateMax
    · simp only [if_pos hcm, List.append_nil]
      rw [ih H lg t0 (c + 1) hH (fun x hx => hw x (List.mem_cons_of_mem t hx))]
      simp only [windowDecisions, windowLog, if_pos hcm, List.length_cons,
        List.nil_append]
      rw [show c + 1 + ts.length = c + (ts.length + 1) from by omega]
    · simp only [if_neg hcm]
      rw [ih _ _ t0 (c + 1) hH (fun x hx => hw x (List.mem_cons_of_mem t hx))]
      simp only [windowDecisions, windowLog, if_neg hcm, List.length_cons,
        List.append_assoc, List.singleton_append]
      rw [show c + 1 + ts.length = c + (ts.length + 1) from by omega]

theorem windowDecisions_spec (n : Nat) :
    ∀ c : Nat, windowDecisions c n =
      (List.range n).map
        (fun i => if c + i + 1 ≤ rateMax then Decision.admitted else Decision.blocked) := by
  induction n with
  | zero => intro c; rfl
  | succ n ih =>
    intro c
    rw [windowDecisions, ih (c + 1), List.range_succ_eq_map, List.map_cons,
      List.map_map]
    have hcond : ∀ i : Nat,
        ((fun i => if c + i + 1 ≤ rateMax then Decision.admitted else Decision.blocked) ∘
          Nat.succ) i =
        (fun i => if c + 1 + i + 1 ≤ rateMax then Decision.admitted else Decision.blocked) i := by
      intro i
      simp only [Function.comp]
      rw [show c + Nat.succ i + 1 = c + 1 + i + 1 from by omega]
    rw [List.map_congr_left (fun i _ => (hcond i).symm)]

theorem windowLog_spec (key : Nat) (country ua : List Char) (ts : List Nat) :
    ∀ c : Nat, windowLog key country ua c ts =
      (ts.drop (rateMax - c)).map
        (fun t => { time := t, ip := key, country := country, ua := ua }) := by
  induction ts with
  | nil => intro c; simp [windowLog]
  | cons t ts ih =>
    intro c
    rw [windowLog, ih (c + 1)]
    by_cases hcm : c + 1 ≤ rateMax
    · rw [if_pos hcm, List.nil_append,
        show rateMax - c = (rateMax - (c + 1)) + 1 from by omega,
        List.drop_succ_cons]
    · rw [if_neg hcm, show rateMax - c = 0 from by omega,
        show rateMax - (c + 1) = 0 from by omega]
      simp

/-! ### Claim theorems -/

/-- C1 counterexample: two post requests handled in the same millisecond
(`Date.now()` returns 5 both times) are BOTH accepted by the
`src/unnamed/part_001` variant and receive the SAME id 5, so the
later-accepted submission's id is not strictly greater and the id value 5 is
reused. -/
theorem c1_counterexample :
    (jsPostConfess 5 (some "hello".data) none []).1 =
      .created { id := 5, message := "hello".data, time := 5, photo := none, likes := 0 } ∧
    (jsPostConfess 5 (some "world".data) none
        [{ id := 5, message := "hello".data, time := 5, photo := none, likes := 0 }]).1 =
      .created { id := 5, message := "world".data, time := 5, photo := none, likes := 0 } ∧
    (runJsPosts [{ now := 5, message := some "hello".data, file := none },
        { now := 5, message := some "world".data, file := none }] []).map (·.id) = [5, 5] := by
  refine ⟨?_, ?_, ?_⟩ <;> decide

/-- C1 (amended): PROVIDED the millisecond clock values of the accepted posts
are strictly increasing, the assigned ids (which equal the clock values) are
strictly increasing in creation order and never reused, in both variants;
without that proviso, the file-backed variant assigns duplicate ids to
same-millisecond posts. -/
theorem c1_id_monotone (base : List Char) (reqs : List PostReq)
    (hjs : ∀ r ∈ reqs, reqOkJs r = true)
    (hsql : ∀ r ∈ reqs, reqOkSql r = true)
    (hmono : List.Pairwise (· < ·) (reqs.map (·.now))) :
    ((runJsPosts reqs []).map (·.id)).reverse = reqs.map (·.now) ∧
    (runSqlPosts base reqs []).map (·.id) = reqs.map (·.now) ∧
    List.Pairwise (· < ·) (((runJsPosts reqs []).map (·.id)).reverse) ∧
    List.Pairwise (· < ·) ((runSqlPosts base reqs []).map (·.id)) ∧
    ((runJsPosts reqs []).map (·.id)).Nodup ∧
    ((runSqlPosts base reqs []).map (·.id)).Nodup := by
  have hrunjs := runJsPosts_eq reqs [] hjs
  have hrunsql := runSqlPosts_eq base reqs [] hsql hmono (by intro c hc; simp at hc)
  have hids_js : ((runJsPosts reqs []).map (·.id)).reverse = reqs.map (·.now) := by
    rw [hrunjs, List.append_nil, List.map_reverse, List.reverse_reverse, List.map_map]
    exact List.map_congr_left (fun r _ => rfl)
  have hids_sql : (runSqlPosts base reqs []).map (·.id) = reqs.map (·.now) := by
    rw [hrunsql, List.nil_append, List.map_map]
    exact List.map_congr_left (fun r _ => rfl)
  have hnd : (reqs.map (·.now)).Nodup :=
    hmono.imp (fun h => Nat.ne_of_lt h)
  refine ⟨hids_js, hids_sql, ?_, ?_, ?_, ?_⟩
  · rw [hids_js]; exact hmono
  · rw [hids_sql]; exact hmono
  · rw [← List.nodup_reverse, hids_js]; exact hnd
  · rw [hids_sql]; exact hnd

/-- C1 witness: the amended theorem applied to two concrete posts at clock
values 1 and 2. -/
theorem c1_witness :
    List.Pairwise (· < ·) (wReqs.map (·.now)) ∧
    (((runJsPosts wReqs []).map (·.id)).reverse = wReqs.map (·.now) ∧
     (runSqlPosts wBase wReqs []).map (·.id) = wReqs.map (·.now) ∧
     List.Pairwise (· < ·) (((runJsPosts wReqs []).map (·.id)).reverse) ∧
     List.Pairwise (· < ·) ((runSqlPosts wBase wReqs []).map (·.id)) ∧
     ((runJsPosts wReqs []).map (·.id)).Nodup ∧
     ((runSqlPosts wBase wReqs []).map (·.id)).Nodup) :=
  ⟨by decide, c1_id_monotone wBase wReqs (by decide) (by decide) (by decide)⟩

/-- C2 counterexample: in the `server.js` variant, two successful appends at
clock values 5 then 3 (the system clock stepped backwards) leave a two-row
table in creation order with ids 5 then 3, but `ORDER BY id DESC` returns the
rows in the order id 5 first — the FIRST-created row first — which is not
reverse creation order. -/
theorem c2_counterexample :
    (runSqlPosts "http://h".data
        [{ now := 5, message := some "aa".data, file := none },
         { now := 3, message := some "bb".data, file := none }] []).map (·.id) = [5, 3] ∧
    sqlListConfessions (runSqlPosts "http://h".data
        [{ now := 5, message := some "aa".data, file := none },
         { now := 3, message := some "bb".data, file := none }] []) ≠
      (runSqlPosts "http://h".data
        [{ now := 5, message := some "aa".data, file := none },
         { now := 3, message := some "bb".data, file := none }] []).reverse := by
  refine ⟨?_, ?_⟩ <;> decide

/-- C2 (amended): after N sequential successful appends starting from an
empty store, both variants return exactly N submissions in reverse creation
order, PROVIDED (for the `server.js` variant, which sorts by id) the clock
values of the appends are strictly increasing; the file-backed variant
returns reverse creation order unconditionally. -/
theorem c2_list_newest_first (base : List Char) (reqs : List PostReq)
    (hjs : ∀ r ∈ reqs, reqOkJs r = true)
    (hsql : ∀ r ∈ reqs, reqOkSql r = true) :
    jsListConfessions (runJsPosts reqs []) = (reqs.map jsRow).reverse ∧
    (jsListConfessions (runJsPosts reqs [])).length = reqs.length ∧
    (List.Pairwise (· < ·) (reqs.map (·.now)) →
      sqlListConfessions (runSqlPosts base reqs []) = (reqs.map (sqlRow base)).reverse ∧
      (sqlListConfessions (runSqlPosts base reqs [])).length = reqs.length) := by
  have hrunjs := runJsPosts_eq reqs [] hjs
  have hjs' : jsListConfessions (runJsPosts reqs []) = (reqs.map jsRow).reverse := by
    rw [jsListConfessions, hrunjs, List.append_nil]
  refine ⟨hjs', by rw [hjs']; simp, ?_⟩
  intro hmono
  have hrunsql := runSqlPosts_eq base reqs [] hsql hmono (by intro c hc; simp at hc)
  have hasc : List.Pairwise (fun a b : Confession => a.id < b.id)
      (reqs.map (sqlRow base)) := by
    rw [List.pairwise_map]
    rw [List.pairwise_map] at hmono
    exact hmono
  have hsql' : sqlListConfessions (runSqlPosts base reqs []) =
      (reqs.map (sqlRow base)).reverse := by
    rw [hrunsql, List.nil_append, sqlListConfessions_of_ascending _ hasc]
  exact ⟨hsql', by rw [hsql']; simp⟩

/-- C2 witness: the amended theorem applied to two concrete posts at clock
values 1 and 2. -/
theorem c2_witness :
    List.Pairwise (· < ·) (wReqs.map (·.now)) ∧
    (jsListConfessions (runJsPosts wReqs []) = (wReqs.map jsRow).reverse ∧
     (jsListConfessions (runJsPosts wReqs [])).length = wReqs.length ∧
     (List.Pairwise (· < ·) (wReqs.map (·.now)) →
       sqlListConfessions (runSqlPosts wBase wReqs []) =
         (wReqs.map (sqlRow wBase)).reverse ∧
       (sqlListConfessions (runSqlPosts wBase wReqs [])).length = wReqs.length)) :=
  ⟨by decide, c2_list_newest_first wBase wReqs (by decide) (by decide)⟩

/-- C3: in both variants one like call is a single atomic step (a lone SQL
`UPDATE ... SET likes = likes + 1` statement, respectively a synchronous
JavaScript block with no suspension point inside the read-modify-write), so K
concurrent like calls execute as K sequential steps in some order; iterating
the like operation K times on an id present in the store leaves every other
submission and every other field untouched and raises exactly that
submission's like counter by exactly K. -/
theorem c3_likes_add_exactly_k (i k : Nat) (store : List Confession)
    (hmem : i ∈ store.map (·.id)) (hi : i ≠ 0)
    (hnd : (store.map (·.id)).Nodup) :
    ∃ l1 c l2, store = l1 ++ c :: l2 ∧ c.id = i ∧
      jsLikeIter i k store = l1 ++ { c with likes := c.likes + k } :: l2 ∧
      sqlLikeIter i k store = l1 ++ { c with likes := c.likes + k } :: l2 := by
  obtain ⟨l1, c, l2, he, hc, hl1⟩ := exists_first_match i store hmem
  have hl2 : ∀ x ∈ l2, x.id ≠ i := by
    intro x hx hxi
    have hnd' := hnd
    rw [he, List.map_append, List.map_cons] at hnd'
    have h2 := hnd'.of_append_right
    have : c.id ∉ l2.map (·.id) := (List.nodup_cons.1 h2).1
    exact this (by rw [hc, ← hxi] at *; exact List.mem_map_of_mem (·.id) hx)
  subst he
  exact ⟨l1, c, l2, rfl, hc,
    jsLikeIter_eq i k l1 c l2 hl1 hc,
    sqlLikeIter_eq i k l1 c l2 hi hl1 hc hl2⟩

/-- C3 witness: 3 like steps on id 7 in a concrete two-row store. -/
theorem c3_witness :
    7 ∈ ([{ id := 7, message := "m".data, time := 7, photo := none, likes := 4 },
          { id := 9, message := "n".data, time := 9, photo := none, likes := 0 }].map
            (Confession.id ·)) ∧
    (∃ l1 c l2,
      [{ id := 7, message := "m".data, time := 7, photo := none, likes := 4 },
       { id := 9, message := "n".data, time := 9, photo := none, likes := 0 }] =
        l1 ++ c :: l2 ∧ c.id = 7 ∧
      jsLikeIter 7 3
        [{ id := 7, message := "m".data, time := 7, photo := none, likes := 4 },
         { id := 9, message := "n".data, time := 9, photo := none, likes := 0 }] =
        l1 ++ { c with likes := c.likes + 3 } :: l2 ∧
      sqlLikeIter 7 3
        [{ id := 7, message := "m".data, time := 7, photo := none, likes := 4 },
         { id := 9, message := "n".data, time := 9, photo := none, likes := 0 }] =
        l1 ++ { c with likes := c.likes + 3 } :: l2) :=
  ⟨by decide, c3_likes_add_exactly_k 7 3 _ (by decide) (by decide) (by decide)⟩

/-- C4: a successful like on an id present in the store returns the new
count and changes exactly the first matching submission, and of it exactly
the `likes` field (+1); the submissions before and after it are returned
unchanged, in both variants (the `server.js` variant additionally needs the
table's primary-key uniqueness, and its handler requires a nonzero id). -/
theorem c4_like_frame (i : Nat) (store : List Confession)
    (hmem : i ∈ store.map (·.id)) (hi : i ≠ 0)
    (hnd : (store.map (·.id)).Nodup) :
    ∃ l1 c l2, store = l1 ++ c :: l2 ∧ c.id = i ∧ (∀ x ∈ l1, x.id ≠ i) ∧
      jsLikeHandler i store =
        (.ok (c.likes + 1), l1 ++ { c with likes := c.likes + 1 } :: l2) ∧
      sqlLikeHandler i store =
        (.ok (c.likes + 1), l1 ++ { c with likes := c.likes + 1 } :: l2) ∧
      likeStatus (jsLikeHandler i store).1 = 200 := by
  obtain ⟨l1, c, l2, he, hc, hl1⟩ := exists_first_match i store hmem
  have hl2 : ∀ x ∈ l2, x.id ≠ i := by
    intro x hx hxi
    have hnd' := hnd
    rw [he, List.map_append, List.map_cons] at hnd'
    have h2 := hnd'.of_append_right
    have : c.id ∉ l2.map (·.id) := (List.nodup_cons.1 h2).1
    exact this (by rw [hc, ← hxi] at *; exact List.mem_map_of_mem (·.id) hx)
  subst he
  have hjs := jsLike_found i l1 c l2 hl1 hc
  refine ⟨l1, c, l2, rfl, hc, hl1, hjs,
    sqlLike_found i l1 c l2 hi hl1 hc hl2, ?_⟩
  rw [hjs]
  rfl

/-- C4 witness: one like on id 7 in a concrete two-row store. -/
theorem c4_witness :
    7 ∈ ([{ id := 7, message := "m".data, time := 7, photo := none, likes := 4 },
          { id := 9, message := "n".data, time := 9, photo := none, likes := 0 }].map
            (Confession.id ·)) ∧
    (∃ l1 c l2,
      [{ id := 7, message := "m".data, time := 7, photo := none, likes := 4 },
       { id := 9, message := "n".data, time := 9, photo := none, likes := 0 }] =
        l1 ++ c :: l2 ∧ c.id = 7 ∧ (∀ x ∈ l1, x.id ≠ 7) ∧
      jsLikeHandler 7
        [{ id := 7, message := "m".data, time := 7, photo := none, likes := 4 },
         { id := 9, message := "n".data, time := 9, photo := none, likes := 0 }] =
        (.ok (c.likes + 1), l1 ++ { c with likes := c.likes + 1 } :: l2) ∧
      sqlLikeHandler 7
        [{ id := 7, message := "m".data, time := 7, photo := none, likes := 4 },
         { id := 9, message := "n".data, time := 9, photo := none, likes := 0 }] =
        (.ok (c.likes + 1), l1 ++ { c with likes := c.likes + 1 } :: l2) ∧
      likeStatus (jsLikeHandler 7
        [{ id := 7, message := "m".data, time := 7, photo := none, likes := 4 },
         { id := 9, message := "n".data, time := 9, photo := none, likes := 0 }]).1 = 200) :=
  ⟨by decide, c4_like_frame 7 _ (by decide) (by decide) (by decide)⟩

/-- C5: liking an id that is absent from the store (and, for the `server.js`
handler, nonzero, since a zero id is caught earlier as `invalidId`) yields
`notFound` — surfaced as HTTP 404 — and returns the store completely
unchanged, in both variants. -/
theorem c5_like_missing_id (i : Nat) (store : List Confession)
    (hnot : i ∉ store.map (·.id)) (hi : i ≠ 0) :
    jsLikeHandler i store = (.notFound, store) ∧
    sqlLikeHandler i store = (.notFound, store) ∧
    likeStatus (jsLikeHandler i store).1 = 404 ∧
    likeStatus (sqlLikeHandler i store).1 = 404 := by
  have h : ∀ x ∈ store, x.id ≠ i := by
    intro x hx hxi
    exact hnot (hxi ▸ List.mem_map_of_mem (·.id) hx)
  have hjs := jsLike_notFound i store h
  have hsql := sqlLike_notFound i store hi h
  refine ⟨hjs, hsql, ?_, ?_⟩
  · rw [hjs]
    rfl
  · rw [hsql]
    rfl

/-- C5 witness: liking the absent id 8 in a concrete one-row store. -/
theorem c5_witness :
    8 ∉ ([{ id := 7, message := "m".data, time := 7, photo := none, likes := 4 }].map
          (Confession.id ·)) ∧
    (jsLikeHandler 8 [{ id := 7, message := "m".data, time := 7, photo := none, likes := 4 }] =
        (.notFound, [{ id := 7, message := "m".data, time := 7, photo := none, likes := 4 }]) ∧
     sqlLikeHandler 8 [{ id := 7, message := "m".data, time := 7, photo := none, likes := 4 }] =
        (.notFound, [{ id := 7, message := "m".data, time := 7, photo := none, likes := 4 }]) ∧
     likeStatus (jsLikeHandler 8
        [{ id := 7, message := "m".data, time := 7, photo := none, likes := 4 }]).1 = 404 ∧
     likeStatus (sqlLikeHandler 8
        [{ id := 7, message := "m".data, time := 7, photo := none, likes := 4 }]).1 = 404) :=
  ⟨by decide, c5_like_missing_id 8 _ (by decide) (by decide)⟩

/-- C6: a post whose message field is absent, or whose message trims to the
empty string (empty or whitespace-only), is rejected as `emptyContent`
(HTTP 400) with the store unchanged, in both variants; every accepted post
stores `sanitizeHtml` applied to the trimmed raw message, so leading and
trailing whitespace is removed before storage.  The upload, if any, is
assumed to pass the multer filter (a failing upload is rejected by multer
before the message check runs; see C8). -/
theorem c6_empty_and_trim (base : List Char) (now : Nat) (msg : Option (List Char))
    (file f1 f2 : Option FileInfo) (store table : List Confession)
    (hf1 : multerFilterErr file = .ok f1) (hf2 : multerFilterSkip file = .ok f2) :
    ((msg = none ∨ ∃ raw, msg = some raw ∧ trimChars raw = []) →
      jsPostConfess now msg file store = (.emptyContent, store) ∧
      sqlPostConfess base now msg file table = (.emptyContent, table) ∧
      postStatus PostOutcome.emptyContent = 400) ∧
    (∀ raw c, msg = some raw → (jsPostConfess now msg file store).1 = .created c →
      c.message = sanitizeHtml (trimChars raw)) ∧
    (∀ raw c, msg = some raw → (sqlPostConfess base now msg file table).1 = .created c →
      c.message = sanitizeHtml (trimChars raw)) := by
  refine ⟨?_, ?_, ?_⟩
  · intro hrej
    rcases hrej with hm | ⟨raw, hm, ht⟩ <;> subst hm
    · exact ⟨by simp [jsPostConfess, hf1], by simp [sqlPostConfess, hf2], rfl⟩
    · exact ⟨by simp [jsPostConfess, hf1, ht], by simp [sqlPostConfess, hf2, ht], rfl⟩
  · intro raw c hm hcr
    subst hm
    simp only [jsPostConfess, hf1] at hcr
    by_cases ht : trimChars raw = []
    · simp [ht] at hcr
    · simp only [if_neg ht] at hcr
      rw [PostOutcome.created.injEq] at hcr
      rw [← hcr]
  · intro raw c hm hcr
    subst hm
    simp only [sqlPostConfess, hf2] at hcr
    by_cases ht : trimChars raw = []
    · simp [ht] at hcr
    · by_cases hdup : table.any (fun r => r.id = now)
      · simp only [if_neg ht, if_pos hdup] at hcr
        simp at hcr
      · simp only [if_neg ht, if_neg hdup] at hcr
        rw [PostOutcome.created.injEq] at hcr
        rw [← hcr]

/-- C6 witness: a whitespace-only message is rejected by both variants, and
an accepted message is stored sanitized and trimmed. -/
theorem c6_witness :
    multerFilterErr none = .ok none ∧
    (((some "  ".data : Option (List Char)) = none ∨
        ∃ raw, (some "  ".data : Option (List Char)) = some raw ∧ trimChars raw = []) →
      jsPostConfess 3 (some "  ".data) none [] = (.emptyContent, []) ∧
      sqlPostConfess wBase 3 (some "  ".data) none [] = (.emptyContent, []) ∧
      postStatus PostOutcome.emptyContent = 400) ∧
    (∀ raw c, (some "  ".data : Option (List Char)) = some raw →
      (jsPostConfess 3 (some "  ".data) none []).1 = .created c →
      c.message = sanitizeHtml (trimChars raw)) :=
  ⟨rfl,
    (c6_empty_and_trim wBase 3 (some "  ".data) none none none [] [] rfl rfl).1,
    (c6_empty_and_trim wBase 3 (some "  ".data) none none none [] [] rfl rfl).2.1⟩

theorem jsPost_mem (now : Nat) (msg : Option (List Char)) (file : Option FileInfo)
    (store : List Confession) :
    ∀ c ∈ (jsPostConfess now msg file store).2,
      c ∈ store ∨ ∃ s, c.message = sanitizeHtml s := by
  intro c hc
  rcases msg with _ | raw <;> rcases hf : multerFilterErr file with e | f <;>
    simp only [jsPostConfess, hf] at hc
  · exact Or.inl hc
  · exact Or.inl hc
  · exact Or.inl hc
  · by_cases ht : trimChars raw = []
    · rw [if_pos ht] at hc
      exact Or.inl hc
    · rw [if_neg ht] at hc
      rcases List.mem_cons.1 hc with hc | hc
      · exact Or.inr ⟨trimChars raw, by rw [hc]⟩
      · exact Or.inl hc

theorem sqlPost_mem (base : List Char) (now : Nat) (msg : Option (List Char))
    (file : Option FileInfo) (table : List Confession) :
    ∀ c ∈ (sqlPostConfess base now msg file table).2,
      c ∈ table ∨ ∃ s, c.message = sanitizeHtml s := by
  intro c hc
  rcases msg with _ | raw <;> rcases hf : multerFilterSkip file with e | f <;>
    simp only [sqlPostConfess, hf] at hc
  · exact Or.inl hc
  · exact Or.inl hc
  · exact Or.inl hc
  · by_cases ht : trimChars raw = []
    · rw [if_pos ht] at hc
      exact Or.inl hc
    · rw [if_neg ht] at hc
      by_cases hdup : table.any (fun r => r.id = now)
      · rw [if_pos hdup] at hc
        exact Or.inl hc
      · rw [if_neg hdup] at hc
        rcases List.mem_append.1 hc with hc | hc
        · exact Or.inl hc
        · simp only [List.mem_singleton] at hc
          exact Or.inr ⟨trimChars raw, by rw [hc]⟩

theorem runJsPosts_clean (reqs : List PostReq) :
    ∀ store : List Confession,
      (∀ c ∈ store, ∀ x ∈ c.message, x ≠ '<' ∧ x ≠ '>') →
      ∀ c ∈ runJsPosts reqs store, ∀ x ∈ c.message, x ≠ '<' ∧ x ≠ '>' := by
  induction reqs with
  | nil => intro store h; exact h
  | cons r rs ih =>
    intro store h
    rw [runJsPosts]
    apply ih
    intro c hc
    rcases jsPost_mem r.now r.message r.file store c hc with hc' | ⟨s, hs⟩
    · exact h c hc'
    · rw [hs]
      exact not_mem_sanitizeHtml s

theorem runSqlPosts_clean (base : List Char) (reqs : List PostReq) :
    ∀ table : List Confession,
      (∀ c ∈ table, ∀ x ∈ c.message, x ≠ '<' ∧ x ≠ '>') →
      ∀ c ∈ runSqlPosts base reqs table, ∀ x ∈ c.message, x ≠ '<' ∧ x ≠ '>' := by
  induction reqs with
  | nil => intro table h; exact h
  | cons r rs ih =>
    intro table h
    rw [runSqlPosts]
    apply ih
    intro c hc
    rcases sqlPost_mem base r.now r.message r.file table c hc with hc' | ⟨s, hs⟩
    · exact h c hc'
    · rw [hs]
      exact not_mem_sanitizeHtml s

/-- C7 counterexample: the request body `<b></b>` passes the emptiness check
(it trims to a non-empty string) but sanitization then removes everything, so
both variants ACCEPT the post and store a submission whose message is the
empty string — empty after trimming — contradicting the claimed invariant
that every stored message is non-empty after trimming. -/
theorem c7_counterexample :
    jsPostConfess 1 (some "<b></b>".data) none [] =
      (.created { id := 1, message := [], time := 1, photo := none, likes := 0 },
        [{ id := 1, message := [], time := 1, photo := none, likes := 0 }]) ∧
    sqlPostConfess "http://h".data 1 (some "<b></b>".data) none [] =
      (.created { id := 1, message := [], time := 1, photo := none, likes := 0 },
        [{ id := 1, message := [], time := 1, photo := none, likes := 0 }]) ∧
    trimChars ([] : List Char) = [] := by
  refine ⟨?_, ?_, ?_⟩ <;> decide

/-- C7 (amended): after any sequence of post requests starting from an empty
store, every stored message is free of markup tag delimiters (neither of the
characters starting or ending a tag occurs in it), in both variants; the
non-emptiness half of the claim fails because the emptiness check runs before
sanitization, so a markup-only message is stored as the empty string. -/
theorem c7_no_markup_survives (base : List Char) (reqs : List PostReq) :
    (∀ c ∈ runJsPosts reqs [], ∀ x ∈ c.message, x ≠ '<' ∧ x ≠ '>') ∧
    (∀ c ∈ runSqlPosts base reqs [], ∀ x ∈ c.message, x ≠ '<' ∧ x ≠ '>') :=
  ⟨runJsPosts_clean reqs [] (by intro c hc; simp at hc),
   runSqlPosts_clean base reqs [] (by intro c hc; simp at hc)⟩

/-- C7 witness: the amended theorem applied to a concrete run whose stored
message is the sanitized form of a markup-bearing input. -/
theorem c7_witness :
    { id := 4, message := "xhi".data, time := 4, photo := none, likes := 0 } ∈
      runJsPosts [{ now := 4, message := some "x<b>hi".data, file := none }] [] ∧
    'x' ∈ ({ id := 4, message := "xhi".data, time := 4, photo := none, likes := 0 } :
      Confession).message ∧
    ('x' ≠ '<' ∧ 'x' ≠ '>') := by
  refine ⟨by decide, by decide,
    (c7_no_markup_survives wBase
        [{ now := 4, message := some "x<b>hi".data, file := none }]).1
      { id := 4, message := "xhi".data, time := 4, photo := none, likes := 0 }
      (by decide) 'x' (by decide)⟩

/-- C8 counterexample: a post carrying a file with declared MIME type
`application/pdf` is NOT rejected with `UnsupportedMediaType`: the
`src/server.js` variant silently drops the file (`cb(null, false)` skips it)
and accepts the post with HTTP 201 and no photo, while the
`src/unnamed/part_001` variant fails the whole request with a generic multer
error surfaced as HTTP 500 by the Express default handler. -/
theorem c8_counterexample :
    sqlPostConfess "http://h".data 7 (some "hi".data) (some pdfFile) [] =
      (.created { id := 7, message := "hi".data, time := 7, photo := none, likes := 0 },
        [{ id := 7, message := "hi".data, time := 7, photo := none, likes := 0 }]) ∧
    postStatus (sqlPostConfess "http://h".data 7 (some "hi".data) (some pdfFile) []).1 = 201 ∧
    jsPostConfess 7 (some "hi".data) (some pdfFile) [] =
      (.uploadError .unsupportedType, []) ∧
    postStatus (PostOutcome.uploadError .unsupportedType) = 500 := by
  refine ⟨?_, ?_, ?_, ?_⟩ <;> decide

/-- C8 (amended): an upload declaring an allow-listed type (for example
`image/png`) within the 2 MiB ceiling is accepted by both variants and the
stored submission carries a retrievable photo reference under the uploads
path; an upload declaring a type outside the allow-list (for example
`application/pdf`) is not rejected with `UnsupportedMediaType` — the
`server.js` variant silently drops the file and accepts the post without a
photo, and the `part_001` variant fails the request with a generic multer
error (HTTP 500). -/
theorem c8_upload_filtering (base : List Char) (now : Nat) (raw : List Char)
    (f : FileInfo) (store table : List Confession)
    (ht : trimChars raw ≠ []) (hfree : ∀ c ∈ table, c.id ≠ now) :
    (f.mimetype ∈ allowedMimes → f.size ≤ fileSizeLimit →
      (jsPostConfess now (some raw) (some f) store).1 =
        .created { id := now
                   message := sanitizeHtml (trimChars raw)
                   time := now
                   photo := some (jsPhotoUrl now f)
                   likes := 0 } ∧
      (sqlPostConfess base now (some raw) (some f) table).1 =
        .created { id := now
                   message := sanitizeHtml (trimChars raw)
                   time := now
                   photo := some (sqlPhotoUrl base now f)
                   likes := 0 }) ∧
    (f.mimetype ∉ allowedMimes →
      (sqlPostConfess base now (some raw) (some f) table).1 =
        .created { id := now
                   message := sanitizeHtml (trimChars raw)
                   time := now
                   photo := none
                   likes := 0 } ∧
      jsPostConfess now (some raw) (some f) store = (.uploadError .unsupportedType, store) ∧
      postStatus (PostOutcome.uploadError .unsupportedType) = 500) := by
  have hany : table.any (fun c => c.id = now) = false := by
    rw [List.any_eq_false]
    intro c hc
    simpa using hfree c hc
  refine ⟨?_, ?_⟩
  · intro hm hs
    have hjs : multerFilterErr (some f) = .ok (some f) := by
      simp [multerFilterErr, hm, hs]
    have hsql : multerFilterSkip (some f) = .ok (some f) := by
      simp [multerFilterSkip, hm, hs]
    constructor
    · simp [jsPostConfess, hjs, if_neg ht]
    · simp [sqlPostConfess, hsql, if_neg ht, hany]
  · intro hm
    have hjs : multerFilterErr (some f) = .error .unsupportedType := by
      simp [multerFilterErr, hm]
    have hsql : multerFilterSkip (some f) = .ok none := by
      simp [multerFilterSkip, hm]
    refine ⟨?_, ?_, rfl⟩
    · simp [sqlPostConfess, hsql, if_neg ht, hany]
    · simp [jsPostConfess, hjs]

/-- C8 witness: the amended theorem applied to a PNG of 100 bytes (accepted
with a photo reference) and to a PDF (silently dropped, respectively multer
error). -/
theorem c8_witness :
    trimChars "hi".data ≠ [] ∧
    ((jsPostConfess 7 (some "hi".data) (some pngFile) []).1 =
        .created { id := 7
                   message := sanitizeHtml (trimChars "hi".data)
                   time := 7
                   photo := some (jsPhotoUrl 7 pngFile)
                   likes := 0 } ∧
     (sqlPostConfess wBase 7 (some "hi".data) (some pngFile) []).1 =
        .created { id := 7
                   message := sanitizeHtml (trimChars "hi".data)
                   time := 7
                   photo := some (sqlPhotoUrl wBase 7 pngFile)
                   likes := 0 }) ∧
    ((sqlPostConfess wBase 7 (some "hi".data) (some pdfFile) []).1 =
        .created { id := 7
                   message := sanitizeHtml (trimChars "hi".data)
                   time := 7
                   photo := none
                   likes := 0 } ∧
     jsPostConfess 7 (some "hi".data) (some pdfFile) [] =
       (.uploadError .unsupportedType, []) ∧
     postStatus (PostOutcome.uploadError .unsupportedType) = 500) :=
  ⟨by decide,
    (c8_upload_filtering wBase 7 "hi".data pngFile [] []
        (by decide) (by intro c hc; simp at hc)).1 (by decide) (by decide),
    (c8_upload_filtering wBase 7 "hi".data pdfFile [] []
        (by decide) (by intro c hc; simp at hc)).2 (by decide)⟩

theorem ddosLimiter_fresh (now key : Nat) (country ua : List Char)
    (st : LimiterState) (hfresh : ∀ e ∈ st.hits, e.1 ≠ key) :
    ddosLimiter now key country ua st =
      (.admitted, { st with hits := st.hits ++ [(key, now, 1)] }) := by
  rw [ddosLimiter]
  simp only [bumpHits_fresh now key st.hits hfresh]
  rw [if_pos (by decide : (1 : Nat) ≤ rateMax)]

theorem windowDecisions_from_one (n : Nat) :
    Decision.admitted :: windowDecisions 1 n =
      (List.range (n + 1)).map
        (fun i => if i < rateMax then Decision.admitted else Decision.blocked) := by
  rw [windowDecisions_spec n 1, List.range_succ_eq_map, List.map_cons, List.map_map]
  have hhead : (if (0 : Nat) < rateMax then Decision.admitted else Decision.blocked) =
      Decision.admitted := by decide
  have htail : ∀ i : Nat,
      (if 1 + i + 1 ≤ rateMax then Decision.admitted else Decision.blocked) =
      ((fun i => if i < rateMax then Decision.admitted else Decision.blocked) ∘
        Nat.succ) i := by
    intro i
    simp only [Function.comp, rateMax]
    by_cases h : i = 0
    · subst h; rfl
    · rw [if_neg (by omega), if_neg (by omega)]
  rw [List.map_congr_left (fun i _ => htail i)]
  simp [hhead]

/-- C9: once a client address has used up the per-window budget of
`rateMax = 2` requests inside one `windowMs = 10` second window, every excess
request in that window is blocked (HTTP 429) and appends to the audit log one
record carrying its timestamp, client address, country header hint and
user-agent, while the requests within the budget are all admitted. -/
theorem c9_window_blocking (key : Nat) (country ua : List Char) (t0 : Nat)
    (ts : List Nat) (st : LimiterState)
    (hfresh : ∀ e ∈ st.hits, e.1 ≠ key)
    (hw : ∀ t ∈ ts, t < t0 + windowMs) :
    (runLimiter key country ua (t0 :: ts) st).1 =
      (List.range (ts.length + 1)).map
        (fun i => if i < rateMax then Decision.admitted else Decision.blocked) ∧
    (runLimiter key country ua (t0 :: ts) st).2.log =
      st.log ++ ((t0 :: ts).drop rateMax).map
        (fun t => { time := t, ip := key, country := country, ua := ua }) := by
  have hrun : runLimiter key country ua (t0 :: ts) st =
      (Decision.admitted :: windowDecisions 1 ts.length,
        { hits := st.hits ++ [(key, t0, 1 + ts.length)]
          log := st.log ++ windowLog key country ua 1 ts }) := by
    rw [runLimiter]
    simp only [ddosLimiter_fresh t0 key country ua st hfresh]
    rw [runLimiter_window key country ua ts st.hits st.log t0 1 hfresh hw]
  constructor
  · simp only [hrun]
    exact windowDecisions_from_one ts.length
  · simp only [hrun]
    rw [windowLog_spec key country ua ts 1]
    rfl

/-- C9 witness: four hits from one client at times 0, 1, 2, 3 inside a single
window — the first two admitted, the last two blocked with audit records. -/
theorem c9_witness :
    (∀ t ∈ [1, 2, 3], t < 0 + windowMs) ∧
    ((runLimiter 9 "US".data "ua".data (0 :: [1, 2, 3]) LimiterState.empty).1 =
      (List.range ([1, 2, 3].length + 1)).map
        (fun i => if i < rateMax then Decision.admitted else Decision.blocked) ∧
     (runLimiter 9 "US".data "ua".data (0 :: [1, 2, 3]) LimiterState.empty).2.log =
      LimiterState.empty.log ++ ((0 :: [1, 2, 3]).drop rateMax).map
        (fun t => { time := t, ip := 9, country := "US".data, ua := "ua".data })) :=
  ⟨by decide,
    c9_window_blocking 9 "US".data "ua".data 0 [1, 2, 3] LimiterState.empty
      (by intro e he; simp [LimiterState.empty] at he) (by decide)⟩

theorem isPrefixOf_self_append (l r : List Char) :
    List.isPrefixOf l (l ++ r) = true := by
  induction l with
  | nil => simp
  | cons a l ih => simp [List.isPrefixOf, ih]

/-- C10: the three POST routes (`/confess`, `/confess/:id/like` via the
`/confess` mount, and `/verify-turnstile`) all consult the one shared
`ddosLimiter` state: any mix of three such requests from one client inside
one window sees the third blocked, because they draw down the same
2-per-10-seconds budget; `GET /confessions` does not match the `/confess`
mount (the prefix must end at a path-segment boundary) and is never
rate-limited and never touches the limiter state. -/
theorem c10_shared_limiter (key : Nat) (country ua : List Char)
    (m1 m2 m3 : Method) (p1 p2 p3 : List Char) (t1 t2 t3 : Nat)
    (st : LimiterState) (hfresh : ∀ e ∈ st.hits, e.1 ≠ key)
    (h1 : limiterApplies m1 p1 = true) (h2 : limiterApplies m2 p2 = true)
    (h3 : limiterApplies m3 p3 = true)
    (hw2 : t2 < t1 + windowMs) (hw3 : t3 < t1 + windowMs) :
    (runReqs key country ua [(m1, p1, t1), (m2, p2, t2), (m3, p3, t3)] st).1 =
      [.admitted, .admitted, .blocked] ∧
    limiterApplies .post "/confess".data = true ∧
    (∀ s : List Char, limiterApplies .post ("/confess/".data ++ s) = true) ∧
    limiterApplies .post "/verify-turnstile".data = true ∧
    limiterApplies .get "/confessions".data = false ∧
    (∀ (m : Method) (p : List Char) (t : Nat) (st0 : LimiterState),
      limiterApplies m p = false → handleReq m p t key country ua st0 = (.admitted, st0)) := by
  refine ⟨?_, by decide, ?_, by decide, by decide, ?_⟩
  · have s1 : handleReq m1 p1 t1 key country ua st =
        (.admitted, { st with hits := st.hits ++ [(key, t1, 1)] }) := by
      rw [handleReq, if_pos h1, ddosLimiter_fresh t1 key country ua st hfresh]
    have s2 : handleReq m2 p2 t2 key country ua
        { st with hits := st.hits ++ [(key, t1, 1)] } =
        (.admitted, { hits := st.hits ++ [(key, t1, 2)], log := st.log }) := by
      rw [handleReq, if_pos h2,
        ddosLimiter_inWindow t2 key t1 1 country ua st.hits st.log hfresh hw2]
      norm_num [rateMax]
    have s3 : handleReq m3 p3 t3 key country ua
        { hits := st.hits ++ [(key, t1, 2)], log := st.log } =
        (.blocked,
          { hits := st.hits ++ [(key, t1, 3)]
            log := st.log ++ [{ time := t3, ip := key, country := country, ua := ua }] }) := by
      rw [handleReq, if_pos h3,
        ddosLimiter_inWindow t3 key t1 2 country ua st.hits st.log hfresh hw3]
      norm_num [rateMax]
    rw [runReqs]
    simp only [s1]
    rw [runReqs]
    simp only [s2]
    rw [runReqs]
    simp only [s3]
    rw [runReqs]
  · intro s
    have hpre := isPrefixOf_self_append "/confess/".data s
    simp [limiterApplies, confessMount, hpre]
  · intro m p t st0 h
    simp [handleReq, h]

/-- C10 witness: a post, a like and a verification attempt from one client at
times 0, 1, 2 — the verification attempt is blocked by the shared budget. -/
theorem c10_witness :
    limiterApplies .post "/confess".data = true ∧
    limiterApplies .post "/confess/5/like".data = true ∧
    limiterApplies .post "/verify-turnstile".data = true ∧
    ((runReqs 9 "US".data "ua".data
        [(.post, "/confess".data, 0), (.post, "/confess/5/like".data, 1),
         (.post, "/verify-turnstile".data, 2)] LimiterState.empty).1 =
      [.admitted, .admitted, .blocked] ∧
     limiterApplies .post "/confess".data = true ∧
     (∀ s : List Char, limiterApplies .post ("/confess/".data ++ s) = true) ∧
     limiterApplies .post "/verify-turnstile".data = true ∧
     limiterApplies .get "/confessions".data = false ∧
     (∀ (m : Method) (p : List Char) (t : Nat) (st0 : LimiterState),
       limiterApplies m p = false →
         handleReq m p t 9 "US".data "ua".data st0 = (.admitted, st0))) :=
  ⟨by decide, by decide, by decide,
    c10_shared_limiter 9 "US".data "ua".data .post .post .post
      "/confess".data "/confess/5/like".data "/verify-turnstile".data 0 1 2
      LimiterState.empty (by intro e he; simp [LimiterState.empty] at he)
      (by decide) (by decide) (by decide) (by decide) (by decide)⟩

end Confess
